import Mathlib

/-!
Verification of the mbed BLE GAP scanner against its specification.

The development embeds, over `List Nat` byte buffers:
  * the TLV advertising-data parser (`hasNext` / `next` and the parse
    loop), modelled from the spec — `ble::AdvertisingDataParser` itself is
    mbed library code and only its caller lives in this repository;
  * the field handlers of `GapDemo::onAdvertisingReport`
    (src/unnamed/part_000 lines 203-273): flag decoding, the 16-bit
    service-ID print loop, the local-name copy, and the indices each
    handler reads from a field's value view;
  * the scan lifecycle procedures `GapDemo::scan`,
    `GapDemo::onScanTimeout` and `GapDemo::on_init_complete`, as functions
    from the host-stack error codes they observe to the commands they
    issue and the errors they report.
-/

namespace GapScanner

/-- An advertising TLV field as yielded by the parser:
`AdvertisingDataParser::element_t` — a type tag and the bytes of the value
view. -/
structure element_t where
  type : Nat
  value : List Nat
deriving DecidableEq, Repr

/-- Modelled from the spec: `AdvertisingDataParser::hasNext` on the
unconsumed suffix of the payload. True iff a length byte `L` is available,
`L ≠ 0`, and cursor + 1 + L does not exceed the buffer length (in suffix
terms: `L ≤ rest.length`). -/
def hasNext : List Nat → Bool
  | [] => false
  | L :: rest => decide (L ≠ 0) && decide (L ≤ rest.length)

/-- Modelled from the spec: `AdvertisingDataParser::next` on the unconsumed
suffix. Reads the type byte after the length byte, builds a view of the
next `L - 1` value bytes, and advances the cursor by `1 + L` (the second
component is the new suffix). Only meaningful when `hasNext` is true. -/
def next : List Nat → element_t × List Nat
  | [] => (⟨0, []⟩, [])
  | L :: rest => (⟨rest.headD 0, (rest.drop 1).take (L - 1)⟩, rest.drop L)

/-- Fuel-indexed iteration of `while (hasNext()) next()` collecting the
yielded fields. The fuel only provides structural termination;
`data.length` steps always suffice since each record consumes at least two
bytes. -/
def parseFieldsAux : Nat → List Nat → List element_t
  | 0, _ => []
  | fuel + 1, d => if hasNext d then (next d).1 :: parseFieldsAux fuel (next d).2 else []

/-- All fields yielded by repeatedly calling `next()` while `hasNext()` is
true on the advertising payload (the loop of
`GapDemo::onAdvertisingReport`, src/unnamed/part_000 lines 203-204). -/
def parseFields (d : List Nat) : List element_t :=
  parseFieldsAux d.length d

/-- Fuel-indexed iteration returning the final unconsumed suffix (the
parser's cursor state once `hasNext()` has become false). -/
def consumeAllAux : Nat → List Nat → List Nat
  | 0, d => d
  | fuel + 1, d => if hasNext d then consumeAllAux fuel (next d).2 else d

/-- The unconsumed suffix left when the parse loop stops. -/
def consumeAll (d : List Nat) : List Nat :=
  consumeAllAux d.length d

/-- Fuel-indexed validity: the buffer is a concatenation of TLV records,
each with length byte `L ≥ 1` and fitting in the remaining buffer. -/
def validTLVAux : Nat → List Nat → Bool
  | 0, d => d.isEmpty
  | _ + 1, [] => true
  | fuel + 1, L :: rest => hasNext (L :: rest) && validTLVAux fuel (next (L :: rest)).2

/-- The buffer is a valid concatenation of whole TLV records. -/
def validTLV (d : List Nat) : Bool :=
  validTLVAux d.length d

/-- The byte span a field occupies in the payload: one length byte
(covering type + value), the type byte, then the value bytes. -/
def encodeField (f : element_t) : List Nat :=
  (f.value.length + 1) :: f.type :: f.value

/-- Concatenation of the byte spans of a list of fields. -/
def encodeFields : List element_t → List Nat
  | [] => []
  | f :: fs => encodeField f ++ encodeFields fs

/-! ### Advertising data type tags used by `GapDemo::onAdvertisingReport`
Modelled from the spec: `ble::adv_data_type_t` is library code; the values
are the Bluetooth assigned numbers the tags name, pinned by the spec's
end-to-end example (`0x01` flags, `0x09` complete local name). -/

/-- Tag of the flags field. -/
def FLAGS : Nat := 0x01

/-- Tag of the incomplete 16-bit service-ID list field. -/
def INCOMPLETE_LIST_16BIT_SERVICE_IDS : Nat := 0x02

/-- Tag of the complete 16-bit service-ID list field. -/
def COMPLETE_LIST_16BIT_SERVICE_IDS : Nat := 0x03

/-- Tag of the shortened local name field. -/
def SHORTENED_LOCAL_NAME : Nat := 0x08

/-- Tag of the complete local name field. -/
def COMPLETE_LOCAL_NAME : Nat := 0x09

/-- Tag of the TX power level field. -/
def TX_POWER_LEVEL : Nat := 0x0A

/-- Tag of the appearance field. -/
def APPEARANCE : Nat := 0x19

/-! ### Flags bitfield decoding
Modelled from the spec: `ble::adv_data_flags_t` is library code; the
recognized bits follow the Bluetooth core specification bit assignment
(limited discoverable `0x01`, general discoverable `0x02`, BR/EDR not
supported `0x04`, simultaneous LE and BR/EDR controller `0x08`,
host `0x10`). -/

/-- Modelled from the spec: `adv_data_flags_t::getlimitedDiscoverable`. -/
def getlimitedDiscoverable (flags : Nat) : Bool := flags.testBit 0

/-- Modelled from the spec: `adv_data_flags_t::getGeneralDiscoverable`. -/
def getGeneralDiscoverable (flags : Nat) : Bool := flags.testBit 1

/-- Modelled from the spec: `adv_data_flags_t::getBrEdrNotSupported`. -/
def getBrEdrNotSupported (flags : Nat) : Bool := flags.testBit 2

/-- Modelled from the spec: `adv_data_flags_t::getSimultaneousLeBredrC`. -/
def getSimultaneousLeBredrC (flags : Nat) : Bool := flags.testBit 3

/-- Modelled from the spec: `adv_data_flags_t::getSimultaneousLeBredrH`. -/
def getSimultaneousLeBredrH (flags : Nat) : Bool := flags.testBit 4

/-! ### Local name handling
`GapDemo::onAdvertisingReport`, src/unnamed/part_000 lines 240-249 (and
src/mbed_BLE_GAP_scanner.ino lines 205-210): `char localname[128];
memset(localname, 0, 128); memcpy(localname, field.value.data(),
field.value.size()); printf("%s", localname);`. -/

/-- Capacity of the `localname` buffer in the local-name handlers. -/
def LOCALNAME_SIZE : Nat := 128

/-- Destination indices written by `memcpy(localname, value.data(), n)`. -/
def memcpyWriteIndices (n : Nat) : List Nat := List.range n

/-- Whether the memcpy of `n` value bytes writes past the 128-byte
`localname` buffer. -/
def memcpyWritesOutOfBounds (n : Nat) : Bool :=
  (memcpyWriteIndices n).any (fun i => decide (LOCALNAME_SIZE ≤ i))

/-- Contents of the 128 cells of `localname` after the memset to 0 and the
in-bounds part of the memcpy. -/
def localnameAfter (value : List Nat) : List Nat :=
  (List.range LOCALNAME_SIZE).map (fun i => value.getD i 0)

/-- The C string `printf("%s", ...)` reads from a buffer: the bytes up to
the first 0. -/
def cStringOf (buf : List Nat) : List Nat := buf.takeWhile (fun b => decide (b ≠ 0))

/-- A payload holding one COMPLETE_LOCAL_NAME record whose value is 129
bytes long (length byte 0x82 = 130 covering type + value). -/
def oversizedNamePayload : List Nat := 0x82 :: 0x09 :: List.replicate 129 0x41

/-! ### 16-bit service-ID list handling
`GapDemo::onAdvertisingReport`, src/unnamed/part_000 lines 220-231:
`for (int i = 0; i < field.value.size(); i += 2)
   printf("%02x%02x", field.value.data()[1], field.value.data()[0]);`. -/

/-- Fuel-indexed model of the service-ID print loop: at loop counter `i`,
while `i < value.size()`, print the pair (value byte 1, value byte 0) and
step `i` by 2. The loop body's indices do not involve `i`, exactly as in
the source. -/
def serviceIdLoopAux (value : List Nat) : Nat → Nat → List (Nat × Nat)
  | 0, _ => []
  | fuel + 1, i =>
    if i < value.length then
      (value.getD 1 0, value.getD 0 0) :: serviceIdLoopAux value fuel (i + 2)
    else []

/-- The byte pairs printed (each as `%02x%02x`) by the 16-bit service-ID
loop over a field's value. -/
def serviceIdPrints (value : List Nat) : List (Nat × Nat) :=
  serviceIdLoopAux value value.length 0

/-- Fuel-indexed model of the value-view indices read by the service-ID
loop: indices 1 and 0 on every iteration. -/
def serviceIdReadsAux (len : Nat) : Nat → Nat → List Nat
  | 0, _ => []
  | fuel + 1, i => if i < len then 1 :: 0 :: serviceIdReadsAux len fuel (i + 2) else []

/-- The value-view indices read by the 16-bit service-ID loop. -/
def serviceIdReads (value : List Nat) : List Nat :=
  serviceIdReadsAux value.length value.length 0

/-- The indices of `field.value` that the dispatch in
`GapDemo::onAdvertisingReport` (src/unnamed/part_000 lines 206-272) reads
for a given field: byte 0 for FLAGS (line 208), TX_POWER_LEVEL (line 251)
and APPEARANCE (line 267); bytes 1 and 0 per loop iteration for the 16-bit
service-ID lists; all `value.size()` bytes for the name memcpys; nothing
for the remaining branches, which only print fixed text or the size. -/
def handlerReads (f : element_t) : List Nat :=
  if f.type = FLAGS then [0]
  else if f.type = INCOMPLETE_LIST_16BIT_SERVICE_IDS then serviceIdReads f.value
  else if f.type = COMPLETE_LIST_16BIT_SERVICE_IDS then serviceIdReads f.value
  else if f.type = SHORTENED_LOCAL_NAME then List.range f.value.length
  else if f.type = COMPLETE_LOCAL_NAME then List.range f.value.length
  else if f.type = TX_POWER_LEVEL then [0]
  else if f.type = APPEARANCE then [0]
  else []

/-- Whether every index the handler reads lies within the field's value
view. -/
def readsInBounds (f : element_t) : Bool :=
  (handlerReads f).all (fun i => decide (i < f.value.length))

/-! ### Scan controller
`GapDemo::scan` (src/unnamed/part_000 lines 157-187), `onScanTimeout`
(lines 276-280) and `on_init_complete` (lines 125-154). Host-stack calls
are modelled by the commands they issue; `ble_error_t` results are `Nat`
with 0 = `BLE_ERROR_NONE`, matching the source's `if (error)` tests. -/

/-- One per-PHY scan configuration (interval, window, active flag). -/
structure phy_configuration where
  interval : Nat
  window : Nat
  active_scanning : Bool
deriving DecidableEq, Repr

/-- The scan parameters fields set by the builder chain in
`GapDemo::scan`: which PHYs are enabled and the per-PHY configurations. -/
structure ScanParameters where
  phy_1m_enabled : Bool
  phy_coded_enabled : Bool
  phy_1m_configuration : phy_configuration
  phy_coded_configuration : phy_configuration
deriving DecidableEq, Repr

/-- The `ScanParameters` value built inline in `GapDemo::scan`
(src/unnamed/part_000 lines 162-167): `.setPhys(true, true)`,
`.setCodedPhyConfiguration(scan_interval_t(80), scan_window_t(60), false)`,
`.set1mPhyConfiguration(scan_interval_t(100), scan_window_t(40), false)`.
The same constant is rebuilt on every invocation. -/
def scanArgument : ScanParameters :=
  { phy_1m_enabled := true
    phy_coded_enabled := true
    phy_1m_configuration := { interval := 100, window := 40, active_scanning := false }
    phy_coded_configuration := { interval := 80, window := 60, active_scanning := false } }

/-- A command issued by the controller to the host stack's Gap. -/
inductive GapCommand where
  | setScanParameters (p : ScanParameters)
  | startScan
deriving DecidableEq, Repr

/-- Observable outcome of one `GapDemo::scan` invocation: the commands it
issued, in order, and how many errors it reported via `print_error`. -/
structure ScanRun where
  commands : List GapCommand
  errors_reported : Nat
deriving DecidableEq, Repr

/-- `GapDemo::scan` (src/unnamed/part_000 lines 157-187): issue
`setScanParameters` with the inline-built parameters; if it returns an
error, report it and return. Otherwise issue `startScan`; if it returns an
error, report it and return. No retry in either case. -/
def scan (set_err start_err : Nat) : ScanRun :=
  if set_err ≠ 0 then
    { commands := [GapCommand.setScanParameters scanArgument], errors_reported := 1 }
  else if start_err ≠ 0 then
    { commands := [GapCommand.setScanParameters scanArgument, GapCommand.startScan]
      errors_reported := 1 }
  else
    { commands := [GapCommand.setScanParameters scanArgument, GapCommand.startScan]
      errors_reported := 0 }

/-- `GapDemo::onScanTimeout` (src/unnamed/part_000 lines 276-280): print a
notice, then enqueue exactly one call of `GapDemo::scan` on the event
queue; the resulting host-stack interaction is that one scan invocation. -/
def onScanTimeout (set_err start_err : Nat) : ScanRun := scan set_err start_err

/-- The scan parameters in effect after a command sequence, starting from
a previously configured value: each `setScanParameters` replaces them. -/
def paramsAfter (init : Option ScanParameters) (cmds : List GapCommand) : Option ScanParameters :=
  cmds.foldl (fun p c => match c with
    | GapCommand.setScanParameters q => some q
    | GapCommand.startScan => p) init

/-- Number of scan-start commands in a command sequence. -/
def countStartScan (cmds : List GapCommand) : Nat :=
  cmds.countP (fun c => decide (c = GapCommand.startScan))

/-- Whether a command is a set-scan-parameters command. -/
def isSetScanParameters : GapCommand → Bool
  | GapCommand.setScanParameters _ => true
  | GapCommand.startScan => false

/-- Number of set-scan-parameters commands in a command sequence. -/
def countSetScanParameters (cmds : List GapCommand) : Nat :=
  cmds.countP isSetScanParameters

/-- Observable outcome of `GapDemo::on_init_complete`: how many
`setPreferredPhys` commands were issued, whether `scan` was scheduled on
the event queue, and how many errors were reported. -/
structure InitRun where
  phy_commands : Nat
  scan_scheduled : Bool
  errors_reported : Nat
deriving DecidableEq, Repr

/-- `GapDemo::on_init_complete` (src/unnamed/part_000 lines 125-154): if
the init result carries an error, report it and return — nothing else
happens. Otherwise, if the controller supports the 2M PHY, issue one
`setPreferredPhys` (reporting, but not acting further on, any error it
returns); in every success path end by scheduling `scan` on the event
queue. -/
def on_init_complete (init_err : Nat) (le_2m_supported : Bool) (phy_err : Nat) : InitRun :=
  if init_err ≠ 0 then
    { phy_commands := 0, scan_scheduled := false, errors_reported := 1 }
  else if le_2m_supported then
    { phy_commands := 1, scan_scheduled := true
      errors_reported := if phy_err ≠ 0 then 1 else 0 }
  else
    { phy_commands := 0, scan_scheduled := true, errors_reported := 0 }

/-! ## Parser lemmas -/

/-- The empty suffix has no next record. -/
theorem hasNext_nil : hasNext [] = false := rfl

/-- Characterization of `hasNext` on a nonempty suffix. -/
theorem hasNext_cons_iff (L : Nat) (rest : List Nat) :
    hasNext (L :: rest) = true ↔ L ≠ 0 ∧ L ≤ rest.length := by
  simp [hasNext]

/-- The suffix after one `next` step. -/
theorem next_snd_cons (L : Nat) (rest : List Nat) : (next (L :: rest)).2 = rest.drop L := rfl

/-- One `next` step strictly shrinks the buffer. -/
theorem next_snd_length_le (L : Nat) (rest : List Nat) :
    (next (L :: rest)).2.length ≤ rest.length := by
  rw [next_snd_cons, List.length_drop]; omega

/-- The fuel argument of `parseFieldsAux` is irrelevant once it is at
least the buffer length. -/
theorem parseFieldsAux_congr : ∀ (f g : Nat) (d : List Nat), d.length ≤ f → d.length ≤ g →
    parseFieldsAux f d = parseFieldsAux g d := by
  intro f
  induction f with
  | zero =>
    intro g d hf _
    have hd : d = [] := List.eq_nil_of_length_eq_zero (Nat.le_zero.mp hf)
    subst hd
    cases g <;> simp [parseFieldsAux, hasNext]
  | succ f ih =>
    intro g d hf hg
    cases d with
    | nil => cases g <;> simp [parseFieldsAux, hasNext]
    | cons L rest =>
      cases g with
      | zero => simp at hg
      | succ g' =>
        simp only [parseFieldsAux]
        by_cases hnx : hasNext (L :: rest) = true
        · rw [hnx]
          simp only [if_true]
          have h2 := next_snd_length_le L rest
          simp only [List.length_cons] at hf hg
          congr 1
          exact ih g' _ (by omega) (by omega)
        · rw [Bool.not_eq_true] at hnx
          rw [hnx]
          simp

/-- The fuel argument of `consumeAllAux` is irrelevant once it is at least
the buffer length. -/
theorem consumeAllAux_congr : ∀ (f g : Nat) (d : List Nat), d.length ≤ f → d.length ≤ g →
    consumeAllAux f d = consumeAllAux g d := by
  intro f
  induction f with
  | zero =>
    intro g d hf _
    have hd : d = [] := List.eq_nil_of_length_eq_zero (Nat.le_zero.mp hf)
    subst hd
    cases g <;> simp [consumeAllAux, hasNext]
  | succ f ih =>
    intro g d hf hg
    cases d with
    | nil => cases g <;> simp [consumeAllAux, hasNext]
    | cons L rest =>
      cases g with
      | zero => simp at hg
      | succ g' =>
        simp only [consumeAllAux]
        by_cases hnx : hasNext (L :: rest) = true
        · rw [hnx]
          simp only [if_true]
          have h2 := next_snd_length_le L rest
          simp only [List.length_cons] at hf hg
          exact ih g' _ (by omega) (by omega)
        · rw [Bool.not_eq_true] at hnx
          rw [hnx]
          simp

/-- One-step unfolding of the parse loop when a record is available. -/
theorem parseFields_pos (d : List Nat) (h : hasNext d = true) :
    parseFields d = (next d).1 :: parseFields (next d).2 := by
  cases d with
  | nil => simp [hasNext] at h
  | cons L rest =>
    show parseFieldsAux (rest.length + 1) (L :: rest) = _
    simp only [parseFieldsAux, h, if_true]
    congr 1
    exact parseFieldsAux_congr rest.length (next (L :: rest)).2.length _
      (next_snd_length_le L rest) le_rfl

/-- The parse loop yields nothing once `hasNext` is false. -/
theorem parseFields_neg (d : List Nat) (h : hasNext d = false) :
    parseFields d = [] := by
  cases d with
  | nil => rfl
  | cons L rest =>
    show parseFieldsAux (rest.length + 1) (L :: rest) = _
    simp only [parseFieldsAux, h]
    simp

/-- One-step unfolding of the cursor when a record is available. -/
theorem consumeAll_pos (d : List Nat) (h : hasNext d = true) :
    consumeAll d = consumeAll (next d).2 := by
  cases d with
  | nil => simp [hasNext] at h
  | cons L rest =>
    show consumeAllAux (rest.length + 1) (L :: rest) = _
    simp only [consumeAllAux, h, if_true]
    exact consumeAllAux_congr rest.length (next (L :: rest)).2.length _
      (next_snd_length_le L rest) le_rfl

/-- The cursor stops moving once `hasNext` is false. -/
theorem consumeAll_neg (d : List Nat) (h : hasNext d = false) :
    consumeAll d = d := by
  cases d with
  | nil => rfl
  | cons L rest =>
    show consumeAllAux (rest.length + 1) (L :: rest) = _
    simp only [consumeAllAux, h]
    simp

/-- A yielded field's byte span followed by the advanced suffix
reconstructs the buffer the step consumed from. -/
theorem encode_next (d : List Nat) (h : hasNext d = true) :
    encodeField (next d).1 ++ (next d).2 = d := by
  cases d with
  | nil => simp [hasNext] at h
  | cons L rest =>
    rw [hasNext_cons_iff] at h
    obtain ⟨hL0, hLe⟩ := h
    cases rest with
    | nil => simp at hLe; omega
    | cons r0 rtl =>
      cases L with
      | zero => exact absurd rfl hL0
      | succ L' =>
        simp only [List.length_cons] at hLe
        have hL'le : L' ≤ rtl.length := by omega
        simp only [next, encodeField, List.drop_succ_cons, List.drop_zero, List.headD_cons,
          Nat.add_sub_cancel, List.cons_append]
        rw [List.length_take, Nat.min_eq_left hL'le, List.take_append_drop]

/-- Round trip at the fuel level: for valid buffers the concatenated byte
spans of all yielded fields reconstruct the buffer. -/
theorem roundtrip_aux : ∀ (fuel : Nat) (d : List Nat), d.length ≤ fuel →
    validTLVAux fuel d = true → encodeFields (parseFieldsAux fuel d) = d := by
  intro fuel
  induction fuel with
  | zero =>
    intro d hlen _
    have hd : d = [] := List.eq_nil_of_length_eq_zero (Nat.le_zero.mp hlen)
    subst hd
    rfl
  | succ f ih =>
    intro d hlen hv
    cases d with
    | nil => rfl
    | cons L rest =>
      simp only [validTLVAux, Bool.and_eq_true] at hv
      obtain ⟨hnx, hv'⟩ := hv
      simp only [parseFieldsAux, hnx, if_true, encodeFields]
      rw [ih (next (L :: rest)).2 ?hlen hv']
      · exact encode_next _ hnx
      case hlen =>
        have := next_snd_length_le L rest
        simp only [List.length_cons] at hlen
        omega

/-- `next` over an appended buffer agrees with `next` on the valid head
part, when a whole record is available there. -/
theorem next_append (L : Nat) (rest s : List Nat) (h : hasNext (L :: rest) = true) :
    (next ((L :: rest) ++ s)).1 = (next (L :: rest)).1 ∧
    (next ((L :: rest) ++ s)).2 = (next (L :: rest)).2 ++ s := by
  rw [hasNext_cons_iff] at h
  obtain ⟨hL0, hLe⟩ := h
  cases rest with
  | nil => simp at hLe; omega
  | cons r0 rtl =>
    simp only [List.length_cons] at hLe
    constructor
    · simp only [List.cons_append, next, List.headD_cons, List.drop_succ_cons, List.drop_zero]
      rw [List.take_append_of_le_length (by omega)]
    · have h1 : (L :: r0 :: rtl) ++ s = L :: ((r0 :: rtl) ++ s) := rfl
      rw [h1]
      show ((r0 :: rtl) ++ s).drop L = (r0 :: rtl).drop L ++ s
      exact List.drop_append_of_le_length (by simp; omega)

/-- Appending junk after a valid buffer changes neither the fields parsed
from the valid part nor the final cursor state reached in the junk. -/
theorem parse_append_aux : ∀ (fuel : Nat) (p s : List Nat), p.length ≤ fuel →
    validTLVAux fuel p = true →
    parseFields (p ++ s) = parseFieldsAux fuel p ++ parseFields s ∧
    consumeAll (p ++ s) = consumeAll s := by
  intro fuel
  induction fuel with
  | zero =>
    intro p s hlen _
    have hp : p = [] := List.eq_nil_of_length_eq_zero (Nat.le_zero.mp hlen)
    subst hp
    simp [parseFieldsAux]
  | succ f ih =>
    intro p s hlen hv
    cases p with
    | nil => simp [parseFieldsAux, hasNext]
    | cons L rest =>
      simp only [validTLVAux, Bool.and_eq_true] at hv
      obtain ⟨hnx, hv'⟩ := hv
      have hL : L ≠ 0 ∧ L ≤ rest.length := (hasNext_cons_iff L rest).mp hnx
      have hnx2 : hasNext ((L :: rest) ++ s) = true := by
        rw [List.cons_append, hasNext_cons_iff, List.length_append]
        exact ⟨hL.1, le_trans hL.2 (Nat.le_add_right _ _)⟩
      have hna := next_append L rest s hnx
      have hlen' : (next (L :: rest)).2.length ≤ f := by
        have := next_snd_length_le L rest
        simp only [List.length_cons] at hlen
        omega
      have ihr := ih (next (L :: rest)).2 s hlen' hv'
      constructor
      · rw [parseFields_pos _ hnx2, hna.1, hna.2, ihr.1]
        simp only [parseFieldsAux, hnx, if_true, List.cons_append]
      · rw [consumeAll_pos _ hnx2, hna.2, ihr.2]

/-- Shape of the service-ID print loop output: with fuel covering the
remaining iterations, the loop starting at counter `i` emits one pair per
iteration — `ceil((len - i) / 2)` pairs — and every pair is built from
value bytes 1 and 0 regardless of the counter. -/
theorem serviceIdLoopAux_spec : ∀ (fuel : Nat) (value : List Nat) (i : Nat),
    value.length ≤ i + 2 * fuel →
    (serviceIdLoopAux value fuel i).length = (value.length - i + 1) / 2 ∧
    ∀ g ∈ serviceIdLoopAux value fuel i, g = (value.getD 1 0, value.getD 0 0) := by
  intro fuel
  induction fuel with
  | zero =>
    intro v i h
    simp only [Nat.mul_zero, Nat.add_zero] at h
    refine ⟨?_, ?_⟩
    · simp only [serviceIdLoopAux, List.length_nil]
      omega
    · intro g hg
      simp [serviceIdLoopAux] at hg
  | succ fuel ih =>
    intro v i h
    by_cases hi : i < v.length
    · have ihr := ih v (i + 2) (by omega)
      refine ⟨?_, ?_⟩
      · simp only [serviceIdLoopAux, hi, if_true, List.length_cons, ihr.1]
        omega
      · intro g hg
        simp only [serviceIdLoopAux, hi, if_true, List.mem_cons] at hg
        rcases hg with rfl | hg
        · rfl
        · exact ihr.2 g hg
    · refine ⟨?_, ?_⟩
      · simp only [serviceIdLoopAux, hi, if_false, List.length_nil]
        omega
      · intro g hg
        simp [serviceIdLoopAux, hi] at hg

/-! ## Claim theorems -/

/-- Claim C1: for every valid TLV-encoded payload buffer (each record's
length byte is at least 1 and the record fits in the remaining buffer),
repeatedly calling `next()` while `hasNext()` is true yields a finite
sequence of fields whose concatenated length-prefix + type + value byte
spans, in order, exactly reconstruct the original buffer. -/
theorem parser_roundtrip (d : List Nat) (h : validTLV d = true) :
    encodeFields (parseFields d) = d :=
  roundtrip_aux d.length d le_rfl h

/-- Witness for C1 at the spec's example payload. -/
theorem parser_roundtrip_witness :
    validTLV [0x02, 0x01, 0x06, 0x05, 0x09, 0x44, 0x65, 0x6D, 0x6F] = true ∧
    encodeFields (parseFields [0x02, 0x01, 0x06, 0x05, 0x09, 0x44, 0x65, 0x6D, 0x6F]) =
      [0x02, 0x01, 0x06, 0x05, 0x09, 0x44, 0x65, 0x6D, 0x6F] :=
  ⟨by decide, parser_roundtrip _ (by decide)⟩

/-- Claim C2: a buffer consisting of well-formed records followed by a
record whose length byte is 0 or claims more bytes than remain parses to
exactly the well-formed records before that point, after which
`hasNext()` is false — the parse stops at the malformed record without
consuming it and without any error channel. -/
theorem parser_truncated_stops (p t : List Nat) (L : Nat) (hp : validTLV p = true)
    (hbad : L = 0 ∨ t.length < L) :
    parseFields (p ++ L :: t) = parseFields p ∧
    hasNext (consumeAll (p ++ L :: t)) = false := by
  have hnx : hasNext (L :: t) = false := by
    simp only [hasNext, Bool.and_eq_false_iff, decide_eq_false_iff_not]
    rcases hbad with h0 | hlt
    · exact Or.inl (by simpa using h0)
    · exact Or.inr (by omega)
  have h := parse_append_aux p.length p (L :: t) le_rfl hp
  refine ⟨?_, ?_⟩
  · rw [h.1, parseFields_neg _ hnx, List.append_nil]
    rfl
  · rw [h.2, consumeAll_neg _ hnx]
    exact hnx

/-- Witness for C2: one valid flags record followed by a truncated record
claiming 5 bytes with only 3 remaining. -/
theorem parser_truncated_stops_witness :
    validTLV [2, 1, 6] = true ∧ ((5 : Nat) = 0 ∨ [9, 68, 101].length < 5) ∧
    (parseFields ([2, 1, 6] ++ 5 :: [9, 68, 101]) = parseFields [2, 1, 6] ∧
      hasNext (consumeAll ([2, 1, 6] ++ 5 :: [9, 68, 101])) = false) :=
  ⟨by decide, by decide, parser_truncated_stops [2, 1, 6] [9, 68, 101] 5 (by decide) (by decide)⟩

/-- Claim C3: the payload 02 01 06 05 09 44 65 6D 6F parses to exactly two
fields — FLAGS with value 0x06, then COMPLETE_LOCAL_NAME with value
"Demo" (44 65 6D 6F) — and `hasNext()` is false afterwards. -/
theorem demo_payload_parses :
    parseFields [0x02, 0x01, 0x06, 0x05, 0x09, 0x44, 0x65, 0x6D, 0x6F] =
      [{ type := FLAGS, value := [0x06] },
       { type := COMPLETE_LOCAL_NAME, value := [0x44, 0x65, 0x6D, 0x6F] }] ∧
    hasNext (consumeAll [0x02, 0x01, 0x06, 0x05, 0x09, 0x44, 0x65, 0x6D, 0x6F]) = false := by
  decide

/-- Claim C4: the flags value byte 0x06 decodes to general-discoverable
and BR/EDR-not-supported true, and every other recognized flag bit
false. -/
theorem flags_0x06_decodes :
    getGeneralDiscoverable 0x06 = true ∧ getBrEdrNotSupported 0x06 = true ∧
    getlimitedDiscoverable 0x06 = false ∧ getSimultaneousLeBredrC 0x06 = false ∧
    getSimultaneousLeBredrH 0x06 = false := by
  decide

set_option maxRecDepth 4000 in
/-- Claim C5 (failing-input evaluation): the parser can yield a
COMPLETE_LOCAL_NAME field with a 129-byte value, for which the handler's
`memcpy` of `value.size()` bytes writes past the 128-byte `localname`
buffer and leaves no null terminator in it — contradicting the claimed
127-character bound; the "Demo" value, by contrast, decodes to exactly
"Demo". -/
theorem localname_copy_unbounded :
    (parseFields oversizedNamePayload).map (fun f => (f.type, f.value.length)) =
      [(COMPLETE_LOCAL_NAME, 129)] ∧
    memcpyWritesOutOfBounds 129 = true ∧
    (localnameAfter (List.replicate 129 0x41)).all (fun b => decide (b ≠ 0)) = true ∧
    cStringOf (localnameAfter [0x44, 0x65, 0x6D, 0x6F]) = [0x44, 0x65, 0x6D, 0x6F] := by
  decide

/-- Claim C6: a scan-timeout callback in the Scanning state leads to
exactly one scan-start command (on the path where the preceding
set-parameters command succeeds, the failure path being Claim C7's), and
the parameters in effect afterwards equal the previously configured ones —
`scan()` rebuilds the identical constant parameters. -/
theorem scan_timeout_restarts (set_err start_err : Nat) (hok : set_err = 0) :
    countStartScan (onScanTimeout set_err start_err).commands = 1 ∧
    paramsAfter (some scanArgument) (onScanTimeout set_err start_err).commands =
      some scanArgument := by
  subst hok
  have hc : (onScanTimeout 0 start_err).commands =
      [GapCommand.setScanParameters scanArgument, GapCommand.startScan] := by
    rw [onScanTimeout, scan]
    simp only [ne_eq, not_true_eq_false, if_false]
    split <;> rfl
  rw [hc]
  decide

/-- Witness for C6 with both commands succeeding. -/
theorem scan_timeout_restarts_witness :
    (0 : Nat) = 0 ∧
    (countStartScan (onScanTimeout 0 0).commands = 1 ∧
      paramsAfter (some scanArgument) (onScanTimeout 0 0).commands = some scanArgument) :=
  ⟨rfl, scan_timeout_restarts 0 0 rfl⟩

/-- Claim C7: in `scan()`, a set-scan-parameters failure means no
scan-start command is issued in that invocation; either failure is
surfaced as exactly one reported error; and neither command is ever
issued more than once (no automatic retry). -/
theorem scan_error_handling (set_err start_err : Nat) :
    (set_err ≠ 0 →
      (scan set_err start_err).commands = [GapCommand.setScanParameters scanArgument] ∧
      (scan set_err start_err).errors_reported = 1) ∧
    (set_err ≠ 0 ∨ start_err ≠ 0 → (scan set_err start_err).errors_reported = 1) ∧
    countStartScan (scan set_err start_err).commands ≤ 1 ∧
    countSetScanParameters (scan set_err start_err).commands ≤ 1 := by
  by_cases hs : set_err = 0
  · subst hs
    by_cases ht : start_err = 0
    · subst ht
      decide
    · have hrun : scan 0 start_err =
          { commands := [GapCommand.setScanParameters scanArgument, GapCommand.startScan]
            errors_reported := 1 } := by
        rw [scan, if_neg (by simp), if_pos ht]
      rw [hrun]
      exact ⟨fun h => absurd rfl h, fun _ => rfl, by decide, by decide⟩
  · have hrun : scan set_err start_err =
        { commands := [GapCommand.setScanParameters scanArgument], errors_reported := 1 } := by
      rw [scan, if_pos hs]
    rw [hrun]
    exact ⟨fun _ => ⟨rfl, rfl⟩, fun _ => rfl, by decide, by decide⟩

/-- Witness for C7 at a failing set-parameters command (error 1) and a
failing start-scan command. -/
theorem scan_error_handling_witness :
    ((scan 1 0).commands = [GapCommand.setScanParameters scanArgument] ∧
      (scan 1 0).errors_reported = 1) ∧
    (scan 0 1).errors_reported = 1 ∧
    countStartScan (scan 1 0).commands ≤ 1 ∧
    countSetScanParameters (scan 1 0).commands ≤ 1 :=
  ⟨(scan_error_handling 1 0).1 (by decide),
   (scan_error_handling 0 1).2.1 (Or.inr (by decide)),
   (scan_error_handling 1 0).2.2.1,
   (scan_error_handling 1 0).2.2.2⟩

/-- Claim C8: if initialization completed with an error, the error is
reported and nothing else happens — no PHY negotiation, no scan ever
scheduled; on success, `scan` is scheduled even when the preferred-PHY
negotiation fails. -/
theorem init_complete_handling (init_err : Nat) (le_2m_supported : Bool) (phy_err : Nat) :
    (init_err ≠ 0 → on_init_complete init_err le_2m_supported phy_err =
      { phy_commands := 0, scan_scheduled := false, errors_reported := 1 }) ∧
    (init_err = 0 → (on_init_complete init_err le_2m_supported phy_err).scan_scheduled = true) := by
  refine ⟨fun h => ?_, fun h => ?_⟩
  · simp [on_init_complete, h]
  · subst h
    cases le_2m_supported <;> simp [on_init_complete]

/-- Witness for C8: a failed initialization, and a successful one with a
failing PHY negotiation. -/
theorem init_complete_handling_witness :
    on_init_complete 1 true 0 =
      { phy_commands := 0, scan_scheduled := false, errors_reported := 1 } ∧
    (on_init_complete 0 true 1).scan_scheduled = true :=
  ⟨(init_complete_handling 1 true 0).1 (by decide), (init_complete_handling 0 true 1).2 rfl⟩

/-- Claim C9 (counterexample): the payload 01 01 is a single well-formed
record — length byte 1, type FLAGS, empty value view — that the parser
yields, and on it the FLAGS handler's read of value byte 0 is not within
the view's bounds, so the claim fails as stated. -/
theorem flags_read_oob_on_empty_value :
    parseFields [0x01, 0x01] = [{ type := FLAGS, value := [] }] ∧
    handlerReads { type := FLAGS, value := [] } = [0] ∧
    readsInBounds { type := FLAGS, value := [] } = false := by
  decide

/-- Claim C9 (amended): for a field of type FLAGS, TX_POWER_LEVEL or
APPEARANCE, the handler reads exactly value byte 0, and that access stays
within the value view's bounds iff the view is nonempty (record length
byte at least 2); a record with length byte 1 makes it out of bounds. -/
theorem single_byte_handler_read_bounds (f : element_t)
    (h : f.type = FLAGS ∨ f.type = TX_POWER_LEVEL ∨ f.type = APPEARANCE) :
    readsInBounds f = true ↔ f.value ≠ [] := by
  have hr : handlerReads f = [0] := by
    rcases h with h | h | h <;>
      simp [handlerReads, h, FLAGS, TX_POWER_LEVEL, APPEARANCE,
        INCOMPLETE_LIST_16BIT_SERVICE_IDS, COMPLETE_LIST_16BIT_SERVICE_IDS,
        SHORTENED_LOCAL_NAME, COMPLETE_LOCAL_NAME]
  rw [readsInBounds, hr]
  cases f.value <;> simp

/-- Witness for the amended C9 at a one-byte FLAGS value. -/
theorem single_byte_handler_read_bounds_witness :
    readsInBounds { type := FLAGS, value := [0x06] } = true ↔
      ({ type := FLAGS, value := [0x06] } : element_t).value ≠ [] :=
  single_byte_handler_read_bounds { type := FLAGS, value := [0x06] } (Or.inl rfl)

/-- Claim C10: over a 16-bit service-ID list value of 2k bytes the print
loop emits exactly k groups, and every group is built from value bytes 1
and 0 — the loop body ignores its counter. -/
theorem service_id_loop_prints (value : List Nat) (k : Nat) (h : value.length = 2 * k) :
    (serviceIdPrints value).length = k ∧
    ∀ g ∈ serviceIdPrints value, g = (value.getD 1 0, value.getD 0 0) := by
  have hs := serviceIdLoopAux_spec value.length value 0 (by omega)
  refine ⟨?_, hs.2⟩
  rw [serviceIdPrints, hs.1]
  omega

/-- Witness for C10 at a two-UUID list (0x180F, 0x180A little-endian):
both printed groups come from bytes 1 and 0. -/
theorem service_id_loop_prints_witness :
    ([0x0F, 0x18, 0x0A, 0x18] : List Nat).length = 2 * 2 ∧
    ((serviceIdPrints [0x0F, 0x18, 0x0A, 0x18]).length = 2 ∧
      ∀ g ∈ serviceIdPrints [0x0F, 0x18, 0x0A, 0x18],
        g = (([0x0F, 0x18, 0x0A, 0x18] : List Nat).getD 1 0,
             ([0x0F, 0x18, 0x0A, 0x18] : List Nat).getD 0 0)) :=
  ⟨by decide, service_id_loop_prints [0x0F, 0x18, 0x0A, 0x18] 2 (by decide)⟩

end GapScanner
